import Mathlib

/-!
Formalisation of the loop-local client cache (`genkit/core/_loop_local.py`)
and of the background reflection-server lifecycle (`genkit/ai/_base_async.py`)
of the Genkit python SDK.

Embedding choices:
* An event loop (execution context) is named by a `Nat`; the result of
  `asyncio.get_running_loop()` is modelled by an `Option Nat` argument
  (`none` when no loop is running on the calling thread, in which case
  CPython raises `RuntimeError`).
* A factory call creates a fresh Python object, so the instance produced by
  the k-th factory invocation is identified by the tag `k`; the
  `invocations` field of the cache state counts factory invocations, and
  Python object identity (`is`) becomes equality of these tags.  Whether the
  k-th invocation raises an exception is given by an oracle
  `factoryFails : Nat → Bool`.
* The `WeakKeyDictionary` is an association list from loop name to instance
  tag; the claims under study do not concern garbage collection, so no entry
  is ever dropped.  The source tests presence with `is not None`, i.e. it
  assumes the factory produces an actual client object and never `None`; the
  embedding makes the same assumption by giving every created instance a tag.
* The getter `_get` runs its check-then-create sequence under
  `threading.Lock`, so each call is one atomic step on the cache state and a
  history of calls is a sequence of such steps.
-/

/-- State captured by the closure that `_loop_local_client` returns:
`byLoop` embeds the `by_loop` weak dictionary from event loop to cached
instance, and `invocations` counts factory invocations so far (the instance
created by the k-th invocation carries the identity tag `k`). -/
structure CacheState where
  byLoop : List (Nat × Nat)
  invocations : Nat
deriving Repr, DecidableEq

/-- State of the cache right after `_loop_local_client(factory)` builds it:
an empty `WeakKeyDictionary` and no factory invocation yet. -/
def initCache : CacheState := ⟨[], 0⟩

/-- Embeds `by_loop.get(loop)` on the association list. -/
def lookupLoop : List (Nat × Nat) → Nat → Option Nat
  | [], _ => none
  | p :: rest, l => if p.1 = l then some p.2 else lookupLoop rest l

/-- Outcome of one call of the getter `_get`. -/
inductive GetResult where
  /-- The getter returned the instance with this identity tag. -/
  | ok (inst : Nat)
  /-- `asyncio.get_running_loop()` raised `RuntimeError`: no running loop. -/
  | noRunningLoop
  /-- The factory raised; the exception propagates to the caller. -/
  | factoryError
deriving Repr, DecidableEq

/-- Embeds the getter `_get` of `_loop_local_client`: read the running loop
(raising when there is none), then under the lock look the loop up in
`by_loop`, return the cached instance when present, and otherwise invoke the
factory and cache the created instance — unless the factory raises, in which
case nothing is cached and the exception propagates. -/
def loopLocalGet (factoryFails : Nat → Bool) (loop : Option Nat) (st : CacheState) :
    GetResult × CacheState :=
  match loop with
  | none => (.noRunningLoop, st)
  | some l =>
    match lookupLoop st.byLoop l with
    | some existing => (.ok existing, st)
    | none =>
      if factoryFails st.invocations then
        (.factoryError, ⟨st.byLoop, st.invocations + 1⟩)
      else
        (.ok st.invocations, ⟨(l, st.invocations) :: st.byLoop, st.invocations + 1⟩)

/-- Runs a sequence of getter calls (each named by the loop it runs on, or
`none` for a call outside any loop), threading the cache state through. -/
def runCalls (factoryFails : Nat → Bool) (calls : List (Option Nat)) (st : CacheState) :
    CacheState :=
  match calls with
  | [] => st
  | c :: rest => runCalls factoryFails rest (loopLocalGet factoryFails c st).2

/-- Well-formedness of a cache state: every cached instance tag was issued by
a past factory invocation, and no two cache entries share an instance tag. -/
def WFCache (st : CacheState) : Prop :=
  (∀ p ∈ st.byLoop, p.2 < st.invocations) ∧
  st.byLoop.Pairwise (fun p q => p.2 ≠ q.2)

theorem lookupLoop_mem {b : List (Nat × Nat)} {l v : Nat}
    (h : lookupLoop b l = some v) : (l, v) ∈ b := by
  induction b with
  | nil => simp [lookupLoop] at h
  | cons p rest ih =>
    rcases p with ⟨pa, pb⟩
    by_cases hp : pa = l
    · subst hp
      simp [lookupLoop] at h
      subst h
      exact List.mem_cons_self _ _
    · simp [lookupLoop, hp] at h
      exact List.mem_cons_of_mem _ (ih h)

theorem lookupLoop_inj {b : List (Nat × Nat)}
    (hp : b.Pairwise (fun p q => p.2 ≠ q.2)) {l1 l2 v1 v2 : Nat} (hne : l1 ≠ l2)
    (h1 : lookupLoop b l1 = some v1) (h2 : lookupLoop b l2 = some v2) : v1 ≠ v2 := by
  induction b with
  | nil => simp [lookupLoop] at h1
  | cons p rest ih =>
    rcases List.pairwise_cons.mp hp with ⟨hhead, hrest⟩
    by_cases hp1 : p.1 = l1
    · have hp2 : p.1 ≠ l2 := fun hc => hne (hp1 ▸ hc ▸ rfl)
      simp [lookupLoop, hp1] at h1
      simp [lookupLoop, hp2] at h2
      have hm := lookupLoop_mem h2
      have := hhead _ hm
      rw [← h1]
      exact this
    · by_cases hp2 : p.1 = l2
      · simp [lookupLoop, hp1] at h1
        simp [lookupLoop, hp2] at h2
        have hm := lookupLoop_mem h1
        have := hhead _ hm
        rw [← h2]
        exact fun hc => this hc.symm
      · simp [lookupLoop, hp1] at h1
        simp [lookupLoop, hp2] at h2
        exact ih hrest h1 h2

theorem loopLocalGet_cached {ff : Nat → Bool} {l v : Nat} {st : CacheState}
    (h : lookupLoop st.byLoop l = some v) :
    loopLocalGet ff (some l) st = (.ok v, st) := by
  simp [loopLocalGet, h]

theorem loopLocalGet_ok_cached {ff : Nat → Bool} {l v : Nat} {st : CacheState}
    (h : (loopLocalGet ff (some l) st).1 = .ok v) :
    lookupLoop (loopLocalGet ff (some l) st).2.byLoop l = some v := by
  rcases hl : lookupLoop st.byLoop l with _ | w
  · cases hf : ff st.invocations
    · simp [loopLocalGet, hl, hf] at h ⊢
      simp [lookupLoop, h]
    · simp [loopLocalGet, hl, hf] at h
  · simp [loopLocalGet, hl] at h ⊢
    exact h

theorem loopLocalGet_byLoop_mono {ff : Nat → Bool} {c : Option Nat} {st : CacheState}
    {l v : Nat} (h : lookupLoop st.byLoop l = some v) :
    lookupLoop (loopLocalGet ff c st).2.byLoop l = some v := by
  rcases c with _ | l2
  · exact h
  · rcases hl : lookupLoop st.byLoop l2 with _ | w
    · cases hf : ff st.invocations
      · have hne : l2 ≠ l := fun hc => by rw [hc, h] at hl; exact Option.noConfusion hl
        simpa [loopLocalGet, hl, hf, lookupLoop, hne] using h
      · simpa [loopLocalGet, hl, hf] using h
    · simpa [loopLocalGet, hl] using h

theorem runCalls_byLoop_mono {ff : Nat → Bool} {cs : List (Option Nat)}
    {st : CacheState} {l v : Nat} (h : lookupLoop st.byLoop l = some v) :
    lookupLoop (runCalls ff cs st).byLoop l = some v := by
  induction cs generalizing st with
  | nil => exact h
  | cons c rest ih => exact ih (loopLocalGet_byLoop_mono h)

theorem WFCache_init : WFCache initCache := by
  constructor
  · intro p hp
    simp [initCache] at hp
  · simp [initCache]

theorem WFCache_get {ff : Nat → Bool} {c : Option Nat} {st : CacheState}
    (h : WFCache st) : WFCache (loopLocalGet ff c st).2 := by
  rcases h with ⟨hbound, hpair⟩
  rcases c with _ | l
  · exact ⟨hbound, hpair⟩
  · rcases hl : lookupLoop st.byLoop l with _ | w
    · cases hf : ff st.invocations
      · simp only [loopLocalGet, hl, hf, Bool.false_eq_true, if_false]
        constructor
        · intro p hp
          rcases List.mem_cons.mp hp with hp | hp
          · rw [hp]
            exact Nat.lt_succ_self _
          · exact Nat.lt_succ_of_lt (hbound p hp)
        · refine List.pairwise_cons.mpr ⟨fun q hq => ?_, hpair⟩
          exact fun hc => Nat.lt_irrefl _ (hc ▸ hbound q hq)
      · simp only [loopLocalGet, hl, hf, if_true]
        refine ⟨fun p hp => ?_, hpair⟩
        exact Nat.lt_succ_of_lt (hbound p hp)
    · simp only [loopLocalGet, hl]
      exact ⟨hbound, hpair⟩

theorem WFCache_runCalls {ff : Nat → Bool} {cs : List (Option Nat)} {st : CacheState}
    (h : WFCache st) : WFCache (runCalls ff cs st) := by
  induction cs generalizing st with
  | nil => exact h
  | cons c rest ih => exact ih (WFCache_get h)

/-- C1: for every factory and every execution context, calling the getter
returned by `_loop_local_client` twice from within that context returns the
identical instance both times: whenever the first call returns an instance,
the immediately following call from the same loop returns the same one. -/
theorem loop_local_same_loop_same_instance (ff : Nat → Bool) (l v : Nat)
    (st : CacheState) (h : (loopLocalGet ff (some l) st).1 = .ok v) :
    (loopLocalGet ff (some l) (loopLocalGet ff (some l) st).2).1 = .ok v := by
  rw [loopLocalGet_cached (loopLocalGet_ok_cached h)]

/-- Witness for C1 at a concrete input: a never-failing factory, loop 0 and
the fresh cache state. -/
theorem loop_local_same_loop_same_instance_witness :
    (loopLocalGet (fun _ => false) (some 0) initCache).1 = .ok 0 ∧
    (loopLocalGet (fun _ => false) (some 0)
      (loopLocalGet (fun _ => false) (some 0) initCache).2).1 = .ok 0 :=
  ⟨by decide, loop_local_same_loop_same_instance (fun _ => false) 0 0 initCache (by decide)⟩

theorem loopLocalGet_ok_distinct {ff : Nat → Bool} {st : CacheState}
    {l1 l2 v1 v2 : Nat} (hwf : WFCache st) (hne : l1 ≠ l2)
    (hc1 : lookupLoop st.byLoop l1 = some v1)
    (h2 : (loopLocalGet ff (some l2) st).1 = .ok v2) : v1 ≠ v2 := by
  rcases hl2 : lookupLoop st.byLoop l2 with _ | w
  · cases hf : ff st.invocations
    · simp [loopLocalGet, hl2, hf] at h2
      have := hwf.1 _ (lookupLoop_mem hc1)
      rw [← h2]
      exact Nat.ne_of_lt this
    · simp [loopLocalGet, hl2, hf] at h2
  · simp [loopLocalGet, hl2] at h2
    exact lookupLoop_inj hwf.2 hne hc1 (h2 ▸ hl2)

/-- C2: for every factory and every pair of distinct execution contexts, after
any history of getter calls, calling the getter from one loop and then from a
different loop yields two different instances, even though both derive from
the same factory (each factory call creates a fresh object). -/
theorem loop_local_distinct_loops_distinct_instances (ff : Nat → Bool)
    (cs : List (Option Nat)) (l1 l2 v1 v2 : Nat) (hne : l1 ≠ l2)
    (h1 : (loopLocalGet ff (some l1) (runCalls ff cs initCache)).1 = .ok v1)
    (h2 : (loopLocalGet ff (some l2)
      (loopLocalGet ff (some l1) (runCalls ff cs initCache)).2).1 = .ok v2) :
    v1 ≠ v2 :=
  loopLocalGet_ok_distinct (WFCache_get (WFCache_runCalls WFCache_init)) hne
    (loopLocalGet_ok_cached h1) h2

/-- Witness for C2 at a concrete input: empty history, loops 0 and 1, a
never-failing factory; the calls return the distinct instances 0 and 1. -/
theorem loop_local_distinct_loops_distinct_instances_witness :
    (0 : Nat) ≠ 1 ∧
    (loopLocalGet (fun _ => false) (some 0) (runCalls (fun _ => false) [] initCache)).1
      = .ok 0 ∧
    (loopLocalGet (fun _ => false) (some 1)
      (loopLocalGet (fun _ => false) (some 0)
        (runCalls (fun _ => false) [] initCache)).2).1 = .ok 1 ∧
    (0 : Nat) ≠ 1 :=
  ⟨by decide, by decide, by decide,
    loop_local_distinct_loops_distinct_instances (fun _ => false) [] 0 1 0 1
      (by decide) (by decide) (by decide)⟩

/-- C3: for every factory and every execution context, at most one factory
invocation occurs across any sequence of getter calls from that context: once
a call of the getter from loop `l` completes normally, every later call from
`l` — after arbitrary interleaved calls from other loops — returns the same
cached instance and leaves the cache state (in particular the invocation
counter) unchanged, so the factory is never invoked again for `l`. -/
theorem loop_local_single_invocation (ff : Nat → Bool) (l v : Nat)
    (st : CacheState) (cs : List (Option Nat))
    (h : (loopLocalGet ff (some l) st).1 = .ok v) :
    loopLocalGet ff (some l) (runCalls ff cs (loopLocalGet ff (some l) st).2)
      = (.ok v, runCalls ff cs (loopLocalGet ff (some l) st).2) :=
  loopLocalGet_cached (runCalls_byLoop_mono (loopLocalGet_ok_cached h))

/-- Witness for C3 at a concrete input: loop 0 succeeds first, then after
interleaved calls from loops 1 and 2 the call from loop 0 is a pure cache
hit. -/
theorem loop_local_single_invocation_witness :
    (loopLocalGet (fun _ => false) (some 0) initCache).1 = .ok 0 ∧
    loopLocalGet (fun _ => false) (some 0)
        (runCalls (fun _ => false) [some 1, some 2]
          (loopLocalGet (fun _ => false) (some 0) initCache).2)
      = (.ok 0, runCalls (fun _ => false) [some 1, some 2]
          (loopLocalGet (fun _ => false) (some 0) initCache).2) :=
  ⟨by decide,
    loop_local_single_invocation (fun _ => false) 0 0 initCache [some 1, some 2]
      (by decide)⟩

/-- C4: if the factory raises when the getter is called from a loop with no
cached entry, the exception propagates to the caller, the cache mapping is
unchanged (no entry is cached for that loop), and the next call of the getter
from the same loop re-invokes the factory (the invocation counter advances
again). -/
theorem loop_local_factory_error (ff : Nat → Bool) (l : Nat) (st : CacheState)
    (hmiss : lookupLoop st.byLoop l = none)
    (hfail : ff st.invocations = true) :
    loopLocalGet ff (some l) st
      = (.factoryError, ⟨st.byLoop, st.invocations + 1⟩) ∧
    (loopLocalGet ff (some l) ⟨st.byLoop, st.invocations + 1⟩).2.invocations
      = st.invocations + 2 := by
  constructor
  · simp [loopLocalGet, hmiss, hfail]
  · cases hf2 : ff (st.invocations + 1) <;>
      simp [loopLocalGet, hmiss, hf2]

/-- Witness for C4 at a concrete input: an always-failing factory, loop 0 and
the fresh cache state. -/
theorem loop_local_factory_error_witness :
    lookupLoop initCache.byLoop 0 = none ∧
    (fun _ => true) initCache.invocations = true ∧
    (loopLocalGet (fun _ => true) (some 0) initCache
        = (.factoryError, ⟨initCache.byLoop, initCache.invocations + 1⟩) ∧
      (loopLocalGet (fun _ => true) (some 0)
          ⟨initCache.byLoop, initCache.invocations + 1⟩).2.invocations
        = initCache.invocations + 2) :=
  ⟨by decide, by decide,
    loop_local_factory_error (fun _ => true) 0 initCache (by decide) (by decide)⟩

/-- C10: calling the getter while no event loop is running on the calling
thread raises `RuntimeError` from `asyncio.get_running_loop()` and leaves the
cache state — including the factory invocation counter — untouched: the
factory is never invoked. -/
theorem loop_local_no_running_loop (ff : Nat → Bool) (st : CacheState) :
    loopLocalGet ff none st = (.noRunningLoop, st) := rfl

/-- Embeds the `threading.Event` held in `self._reflection_ready`. -/
structure ReadyEvent where
  isSet : Bool
deriving Repr, DecidableEq

/-- Embeds `threading.Event.set`: idempotent, marks the event as set. -/
def ReadyEvent.setEvent (_ : ReadyEvent) : ReadyEvent := ⟨true⟩

/-- Embeds `_ReflectionServer.startup`: run `super().startup(sockets=sockets)`
(whose outcome — normal return or raised exception — is the `superStartup`
argument, since uvicorn is an external collaborator) inside a
`try`/`finally` that sets the ready event on both paths, and propagate the
outcome unchanged. -/
def reflectionStartup (superStartup : Except Nat Unit) (ready : ReadyEvent) :
    Except Nat Unit × ReadyEvent :=
  match superStartup with
  | .ok _ => (.ok (), ready.setEvent)
  | .error e => (.error e, ready.setEvent)

/-- Steps of the supervisor coroutine `_run` inside
`GenkitBase._start_reflection_background`, linearized in the order the code
forces them: the readiness wait (`asyncio.to_thread(self._reflection_ready.wait)`)
returns only after `_ReflectionServer.startup` has set the event in its
`finally` block, which itself runs only after uvicorn's bind attempt inside
the `server.serve` task. -/
inductive SupEvent where
  /-- `sock.bind(('127.0.0.1', 0))` on the supervisor thread (spec is None). -/
  | osBind
  /-- uvicorn's bind/startup attempt inside the spawned `server.serve` task. -/
  | serverBind
  /-- `self._ready.set()` in the `finally` of `_ReflectionServer.startup`. -/
  | readySet
  /-- `await asyncio.to_thread(self._reflection_ready.wait)` returns. -/
  | readyWaitDone
  /-- the supervisor reads `server.should_exit`. -/
  | checkShouldExit
  /-- `logger.warning(...)` then `return` on the failure path. -/
  | logWarning
  /-- `runtime_manager.write_runtime_file()`. -/
  | writeManifest
  /-- `logger.ainfo(...)` announcing the running server. -/
  | logRunning
  /-- `await server_task`, keeping the server alive for the process life. -/
  | awaitServerTask
deriving Repr, DecidableEq

/-- Embeds the supervisor coroutine `_run`: optionally bind an OS-chosen
socket (when no spec was given), spawn the serve task, wait for readiness,
then either log and return (when `server.should_exit` is set) or write the
runtime manifest — deferred until this point because the `RuntimeManager` was
entered with `lazy_write=True` (modelled from the spec: lazy mode defers the
actual manifest write until explicitly triggered post-readiness) — and await
the server task forever. -/
def reflectionRun (specProvided shouldExit : Bool) : List SupEvent :=
  (if specProvided then [] else [.osBind]) ++
  [.serverBind, .readySet, .readyWaitDone, .checkShouldExit] ++
  (if shouldExit then [.logWarning] else [.writeManifest, .logRunning, .awaitServerTask])

/-- C5: the readiness event is set on every completion of the server startup
path — `reflectionStartup` sets it whether `super().startup` returned
normally or raised — the startup outcome is propagated unchanged, and the
supervisor reads the server's `should_exit` flag only after the readiness
wait completes, which is how failure is distinguished from success. -/
theorem reflection_ready_always_set (r : Except Nat Unit) (ev : ReadyEvent)
    (sp se : Bool) :
    (reflectionStartup r ev).2.isSet = true ∧
    (reflectionStartup r ev).1 = r ∧
    (reflectionRun sp se).indexOf .readyWaitDone
      < (reflectionRun sp se).indexOf .checkShouldExit := by
  refine ⟨?_, ?_, ?_⟩
  · cases r <;> rfl
  · rcases r with e | u
    · rfl
    · cases u
      rfl
  · cases sp <;> cases se <;> decide

/-- C7: the runtime manifest is written only after the readiness wait
completes, which in turn completes only after the ready event is set, which
happens only after the server's bind step (and after the OS-level socket bind
when no spec was given); and when the server reports `should_exit` at the end
of the readiness wait, the supervisor logs a warning and never writes the
manifest. -/
theorem reflection_manifest_after_ready (sp : Bool) :
    ((reflectionRun sp false).indexOf .serverBind
      < (reflectionRun sp false).indexOf .readySet) ∧
    ((reflectionRun sp false).indexOf .readySet
      < (reflectionRun sp false).indexOf .readyWaitDone) ∧
    ((reflectionRun sp false).indexOf .readyWaitDone
      < (reflectionRun sp false).indexOf .writeManifest) ∧
    (.writeManifest ∈ reflectionRun sp false) ∧
    ((reflectionRun false false).indexOf .osBind
      < (reflectionRun false false).indexOf .readySet) ∧
    (.writeManifest ∉ reflectionRun sp true) ∧
    (.logWarning ∈ reflectionRun sp true) := by
  cases sp <;> decide

/-- Signals that end the development-mode wait: `signal.SIGINT` (Ctrl+C,
handled through anyio) and `signal.SIGTERM` (received by the
`_handle_sigterm` task, which cancels the task group's scope). -/
inductive Sig where
  | sigint
  | sigterm
deriving Repr, DecidableEq

/-- Observable steps of `GenkitBase.run_main` and of the `dev_runner`
coroutine it defines. -/
inductive MainEvent where
  /-- `run_loop(coro)` in the production branch. -/
  | runLoopProd
  /-- `user_result = await coro` inside `dev_runner`. -/
  | awaitUserCoro
  /-- `logger.exception('User coroutine failed')` in the `except` clause. -/
  | logUserFailure
  /-- `logger.info(...)` announcing the Dev UI before the blocking wait. -/
  | logDevRunning
  /-- the signal wait (task group with `_handle_sigterm` plus
  `anyio.sleep_forever()`) ends because this signal arrived. -/
  | devWaitSignal (s : Sig)
  /-- `logger.info('Dev UI server stopped.')` after the wait. -/
  | logDevStopped
deriving Repr, DecidableEq

/-- Modelled from the spec: `run_loop` (from `genkit.aio.loop`, not under the
sources provided) runs the task to completion in a dedicated top-level
execution context and returns its result, or propagates its failure,
directly.  The user coroutine's outcome is the `coroResult` argument. -/
def run_loop (coroResult : Except Nat Nat) : Except Nat Nat :=
  coroResult

/-- Embeds the `user_result` bookkeeping of `dev_runner`: it starts as `None`
and is assigned the awaited value only when the user coroutine does not
raise. -/
def userResultOrNone : Except Nat Nat → Option Nat
  | .ok v => some v
  | .error _ => none

/-- Embeds `GenkitBase.run_main`: in production mode return
`run_loop(coro)`; in development mode run `dev_runner`, which awaits the
user coroutine, logs (without propagating) its failure, blocks on the same
execution context until SIGINT or SIGTERM arrives, and then returns the user
result, or `None` when the coroutine failed.  The returned value is paired
with the ordered trace of observable steps; `sig` names the signal whose
arrival ends the development-mode wait (an external input). -/
def run_main (dev : Bool) (coroResult : Except Nat Nat) (sig : Sig) :
    Except Nat (Option Nat) × List MainEvent :=
  if dev then
    (.ok (userResultOrNone coroResult),
      [.awaitUserCoro] ++
      (match coroResult with
        | .ok _ => []
        | .error _ => [.logUserFailure]) ++
      [.logDevRunning, .devWaitSignal sig, .logDevStopped])
  else
    ((run_loop coroResult).map some, [.runLoopProd])

/-- C6: in development mode `run_main` runs the user coroutine first, never
propagates a failure (its overall result is always `ok`), logs the failure
exactly when the coroutine failed, blocks after the coroutine until an
interrupt or termination signal arrives, and only then returns the user
coroutine's result — or `None` when the coroutine failed. -/
theorem run_main_dev_behavior (coroResult : Except Nat Nat) (sig : Sig) :
    (run_main true coroResult sig).1 = .ok (userResultOrNone coroResult) ∧
    ((run_main true coroResult sig).2.contains .logUserFailure
      = !(match coroResult with | .ok _ => true | .error _ => false)) ∧
    ((run_main true coroResult sig).2.indexOf .awaitUserCoro
      < (run_main true coroResult sig).2.indexOf (.devWaitSignal sig)) ∧
    ((run_main true coroResult sig).2.indexOf (.devWaitSignal sig)
      < (run_main true coroResult sig).2.indexOf .logDevStopped) := by
  rcases coroResult with e | v <;> cases sig <;>
    exact ⟨rfl, rfl, of_decide_eq_true rfl, of_decide_eq_true rfl⟩

/-- C8: in production mode `run_main` returns the user coroutine's result
directly, propagates its failure unchanged, and performs no step other than
`run_loop` — no background server is involved. -/
theorem run_main_prod_behavior (v e : Nat) (sig : Sig) :
    (run_main false (.ok v) sig).1 = .ok (some v) ∧
    (run_main false (.error e) sig).1 = .error e ∧
    (run_main false (.ok v) sig).2 = [.runLoopProd] ∧
    (run_main false (.error e) sig).2 = [.runLoopProd] :=
  ⟨rfl, rfl, rfl, rfl⟩

/-- Observable state of a `GenkitBase` instance for the construction claim:
whether `self._reflection_ready` is set and whether the background
reflection thread was started. -/
structure GenkitState where
  reflectionReady : Bool
  reflectionThreadStarted : Bool
deriving Repr, DecidableEq

/-- Embeds `GenkitBase.__init__`: the ready event is created unset, and
`_start_reflection_background` runs — starting the daemon thread — exactly
when `is_dev_environment()` holds (the environment flag is the argument). -/
def genkitInit (isDevEnvironment : Bool) : GenkitState :=
  { reflectionReady := false, reflectionThreadStarted := isDevEnvironment }

/-- Later steps in the life of a `GenkitBase` instance that could touch the
readiness event.  The only code that ever sets `_reflection_ready` is
`_ReflectionServer.startup`, reached from the thread spawned by
`_start_reflection_background`; registering actions or running `run_main`
never touches it. -/
inductive HostStep where
  /-- `_ReflectionServer.startup` completes on the reflection thread; it can
  only run when that thread was started. -/
  | reflectionStartupCompletes
  /-- the user registers a flow/action on the registry. -/
  | registerAction
  /-- the user calls `run_main`. -/
  | runMainCall
deriving Repr, DecidableEq

/-- One step of the instance's life, guarded as in the code: the startup step
exists only on a started reflection thread. -/
def hostStep (st : GenkitState) : HostStep → GenkitState
  | .reflectionStartupCompletes =>
    if st.reflectionThreadStarted then { st with reflectionReady := true } else st
  | .registerAction => st
  | .runMainCall => st

/-- Runs a sequence of life steps of the instance. -/
def hostRun (st : GenkitState) (steps : List HostStep) : GenkitState :=
  match steps with
  | [] => st
  | s :: rest => hostRun (hostStep st s) rest

/-- C9: constructing `GenkitBase` with the development flag unset never
starts the background reflection thread, and the readiness event stays unset
for the life of the instance, whatever steps follow. -/
theorem prod_init_no_reflection (steps : List HostStep) :
    (hostRun (genkitInit false) steps).reflectionThreadStarted = false ∧
    (hostRun (genkitInit false) steps).reflectionReady = false := by
  have h : hostRun (genkitInit false) steps = genkitInit false := by
    induction steps with
    | nil => rfl
    | cons s rest ih =>
      have hs : hostStep (genkitInit false) s = genkitInit false := by
        cases s <;> rfl
      rw [hostRun, hs, ih]
  rw [h]
  exact ⟨rfl, rfl⟩
